import Mathlib

/-!
# PDFouX viewer: rendering scheduler of `script.js`

A shallow embedding of the scheduling core of `src/script.js`: the scale
helpers, the page cache (`rendered`), the render-task map (`renderTasks`),
`renderPage`, `unloadFar`, `ensureAround`, the visible-page scan of the
scroll handler and the debounced commit of `smoothZoom`.

Modelling conventions.
* The argument and result of `clamp` are JavaScript numbers with `NaN` and
  the two infinities (`JsNum`). The numbers held in the viewer state (zoom,
  scales, heights, coordinates, scroll offset) are finite and are exact
  rationals (`ℚ`); the initial `bestDist = Infinity` of the scroll handler
  is `none : Option ℚ`.
* Page numbers are integers (`Int`).
* A JavaScript `Map` is an association list in insertion order with
  `mapGet`, `mapHas`, `mapSet`, `mapDelete`.
* A promise chain is split at its suspension points: the synchronous part
  of `renderPage` returns a `RenderResult`; the callbacks that run when
  `getPage` resolves (`pageFetched`), when the task promise fulfils
  (`taskFulfilled`) and when it rejects (`taskRejected`) are separate
  functions over the viewer state, each taking the closure it captured.
* Task objects and canvases are identified by natural numbers allocated
  from `nextTask`; `page.render` calls are logged in `renderCalls` and
  `task.cancel()` calls in `cancelled`.
* DOM styling (canvas pixel sizes, the `canvas-scroll` class, shell
  placeholders, the zoom label) is not represented.
-/

namespace PDFouX

/-! ## Configuration and scale helpers -/

def BASELINE : ℚ := 8 / 10
def UI_MIN : ℚ := 1 / 2
def UI_MAX : ℚ := 3
def KEEP_NEIGHBOR : Int := 1

/-- Source: `function actualScaleFromUi(ui){ return ui * BASELINE; }`. -/
def actualScaleFromUi (ui : ℚ) : ℚ := ui * BASELINE

/-- A JavaScript number: `NaN`, an infinity, or a finite value. -/
inductive JsNum where
  | nan
  | negInf
  | fin (q : ℚ)
  | posInf
  deriving DecidableEq, Repr

/-- Source: `Math.min(a, b)`; the result is `NaN` when an argument is `NaN`. -/
def jsMin : JsNum → JsNum → JsNum
  | .nan, _ => .nan
  | _, .nan => .nan
  | .negInf, _ => .negInf
  | _, .negInf => .negInf
  | .posInf, b => b
  | a, .posInf => a
  | .fin a, .fin b => .fin (min a b)

/-- Source: `Math.max(a, b)`; the result is `NaN` when an argument is `NaN`. -/
def jsMax : JsNum → JsNum → JsNum
  | .nan, _ => .nan
  | _, .nan => .nan
  | .posInf, _ => .posInf
  | _, .posInf => .posInf
  | .negInf, b => b
  | a, .negInf => a
  | .fin a, .fin b => .fin (max a b)

/-- Source: the comparison `a <= b`; it is false when an operand is `NaN`. -/
def jsLe : JsNum → JsNum → Bool
  | .nan, _ => false
  | _, .nan => false
  | .negInf, _ => true
  | _, .posInf => true
  | .posInf, _ => false
  | _, .negInf => false
  | .fin a, .fin b => decide (a ≤ b)

/-- Source: `function clamp(v,a,b){ return Math.max(a, Math.min(b, v)); }`. -/
def clamp (v a b : JsNum) : JsNum := jsMax a (jsMin b v)

/-! ## JavaScript `Map` as an association list -/

/-- Source: `Map.prototype.get`; `none` is `undefined`. -/
def mapGet {α : Type} : List (Int × α) → Int → Option α
  | [], _ => none
  | (k, v) :: m, n => if k = n then some v else mapGet m n

/-- Source: `Map.prototype.has`. -/
def mapHas {α : Type} (m : List (Int × α)) (n : Int) : Bool := (mapGet m n).isSome

/-- Source: `Map.prototype.set`; an existing key keeps its position. -/
def mapSet {α : Type} : List (Int × α) → Int → α → List (Int × α)
  | [], n, v => [(n, v)]
  | (k, w) :: m, n, v => if k = n then (k, v) :: m else (k, w) :: mapSet m n v

/-- Source: `Map.prototype.delete`. -/
def mapDelete {α : Type} : List (Int × α) → Int → List (Int × α)
  | [], _ => []
  | (k, w) :: m, n => if k = n then mapDelete m n else (k, w) :: mapDelete m n

/-! ## State -/

/-- A value of the `rendered` map: `{ canvas, scale }`. -/
structure RenderedInfo where
  canvas : Nat
  scale : ℚ
  deriving DecidableEq, Repr

/-- The `preserveFocus` object `{page, fraction, oldHeight}`. A `fraction`
that is not of type number and an `oldHeight` that is `undefined` or `null`
are `none`. -/
structure FocusToken where
  page : Int
  fraction : Option ℚ
  oldHeight : Option ℚ
  deriving DecidableEq, Repr

/-- One logged `page.render` call. -/
structure RenderCall where
  task : Nat
  page : Int
  scale : ℚ
  deriving DecidableEq, Repr

/-- The module-level state of `script.js` together with the part of the
environment the scheduler acts on. -/
structure Viewer where
  /-- Whether `pdfDoc` is non-null. -/
  pdfDoc : Bool
  pageCount : Int
  uiScale : ℚ
  visiblePage : Int
  /-- The keys of `pageShells`. -/
  pageShells : List Int
  rendered : List (Int × RenderedInfo)
  renderTasks : List (Int × Nat)
  /-- The value of `container.scrollTop`. -/
  scrollTop : ℚ
  /-- Pages on which `scrollIntoView` with `block: 'center'` was called. -/
  centered : List Int
  nextTask : Nat
  renderCalls : List RenderCall
  cancelled : List Nat
  /-- Number of `console.error` calls. -/
  consoleErrors : Nat
  deriving DecidableEq, Repr

/-- The values taken by the counter of a loop `for(let i=a; ...; i++)` that
runs `n` times: `a, a+1, ...`. -/
def countFrom (a : Int) : Nat → List Int
  | 0 => []
  | n + 1 => a :: countFrom (a + 1) n

/-- The state right after `init` has loaded a document of `n` pages and
`buildShells(n)` has run, before its `ensureAround(1)`. -/
def loaded (n : Nat) : Viewer :=
  { pdfDoc := true, pageCount := n, uiScale := 1, visiblePage := 1,
    pageShells := countFrom 1 n, rendered := [], renderTasks := [],
    scrollTop := 0, centered := [], nextTask := 0, renderCalls := [],
    cancelled := [], consoleErrors := 0 }

/-! ## `renderPage` -/

/-- The closure captured by the `getPage(num).then(page => ...)` callback. -/
structure FetchCtx where
  num : Int
  scale : ℚ
  preserveFocus : Option FocusToken
  deriving DecidableEq, Repr

/-- The closure captured by the callbacks on `task.promise`. -/
structure TaskCtx where
  num : Int
  scale : ℚ
  preserveFocus : Option FocusToken
  canvas : Nat
  task : Nat
  deriving DecidableEq, Repr

/-- What the synchronous part of `renderPage` returns. -/
inductive RenderResult where
  /-- The value `Promise.resolve()`. -/
  | resolvedUndefined
  /-- The value `Promise.resolve(existing.canvas)`. -/
  | resolvedCanvas (canvas : Nat)
  /-- The promise `pdfDoc.getPage(num).then(...)`, not yet settled. -/
  | fetching (ctx : FetchCtx)
  deriving DecidableEq, Repr

/-- Source: `existing && Math.abs(existing.scale - scale) < 0.001`. -/
def scaleMatches (existing : Option RenderedInfo) (scale : ℚ) : Bool :=
  match existing with
  | none => false
  | some e => decide (|e.scale - scale| < 1 / 1000)

/-- Source: `if(renderTasks.has(num)){ try{ renderTasks.get(num).cancel(); }catch(e){}
renderTasks.delete(num); }` (used by `renderPage` and `unloadFar`). -/
def cancelTask (s : Viewer) (num : Int) : Viewer :=
  match mapGet s.renderTasks num with
  | none => s
  | some t =>
    { s with cancelled := t :: s.cancelled, renderTasks := mapDelete s.renderTasks num }

/-- Source: the synchronous part of `renderPage(num, scale, preserveFocus)`,
up to and including the call of `pdfDoc.getPage(num)`. -/
def renderPage (s : Viewer) (num : Int) (scale : ℚ)
    (preserveFocus : Option FocusToken) : Viewer × RenderResult :=
  if !s.pdfDoc then (s, .resolvedUndefined)
  else if num < 1 ∨ num > s.pageCount then (s, .resolvedUndefined)
  else
    match mapGet s.rendered num with
    | some existing =>
      if scaleMatches (some existing) scale then (s, .resolvedCanvas existing.canvas)
      else
        let s1 := cancelTask s num
        if num ∈ s1.pageShells then (s1, .fetching ⟨num, scale, preserveFocus⟩)
        else (s1, .resolvedUndefined)
    | none =>
      let s1 := cancelTask s num
      if num ∈ s1.pageShells then (s1, .fetching ⟨num, scale, preserveFocus⟩)
      else (s1, .resolvedUndefined)

/-- Source: the body of `getPage(num).then(page => ...)` up to
`renderTasks.set(num, task)`: a canvas is created, `page.render` starts a
task, and the task is registered. -/
def pageFetched (s : Viewer) (c : FetchCtx) : Viewer × TaskCtx :=
  let t := s.nextTask
  ({ s with nextTask := t + 1,
            renderCalls := s.renderCalls ++ [⟨t, c.num, c.scale⟩],
            renderTasks := mapSet s.renderTasks c.num t },
   ⟨c.num, c.scale, c.preserveFocus, t, t⟩)

/-- The scroll adjustment chosen by the focus block of the completion
callback. -/
inductive FocusAction where
  | nothing
  | scrollBy (delta : ℚ)
  | center
  deriving DecidableEq, Repr

/-- Source: the block `if(preserveFocus && preserveFocus.page === num &&
typeof preserveFocus.fraction === 'number'){ ... }` of the completion
callback; `newH` is `inner.getBoundingClientRect().height`. -/
def focusAction (preserveFocus : Option FocusToken) (num : Int) (newH : ℚ) : FocusAction :=
  match preserveFocus with
  | none => .nothing
  | some pf =>
    if pf.page = num then
      match pf.fraction with
      | none => .nothing
      | some fraction =>
        -- const oldHeight = (preserveFocus.oldHeight || null)
        let oldHeight : Option ℚ :=
          match pf.oldHeight with
          | none => none
          | some h => if h = 0 then none else some h
        match oldHeight with
        | some h =>
          if h > 0 then
            let oldLocal := fraction * h
            let newLocal := fraction * newH
            .scrollBy (newLocal - oldLocal)
          else .center
        | none => .center
    else .nothing

/-- Source: `container.scrollTop += delta` or `shell.scrollIntoView({block:'center'})`. -/
def applyFocus (s : Viewer) (num : Int) : FocusAction → Viewer
  | .nothing => s
  | .scrollBy delta => { s with scrollTop := s.scrollTop + delta }
  | .center => { s with centered := s.centered ++ [num] }

/-- How a promise settled. A rejection carries the `message` of the error
value, `none` when the value has no string `message`. -/
inductive Settled where
  | fulfilled (canvas : Option Nat)
  | rejected (message : Option String)
  deriving DecidableEq, Repr

/-- Source: the callback `task.promise.then(() => { ... return canvas; })`. -/
def taskFulfilled (s : Viewer) (c : TaskCtx) (newH : ℚ) : Viewer × Settled :=
  let s1 := { s with rendered := mapSet s.rendered c.num ⟨c.canvas, c.scale⟩ }
  let s2 := applyFocus s1 c.num (focusAction c.preserveFocus c.num newH)
  ({ s2 with renderTasks := mapDelete s2.renderTasks c.num }, .fulfilled (some c.canvas))

/-- Source: `String.prototype.includes`. -/
def includes (s sub : String) : Bool :=
  s.toList.tails.any fun t => sub.toList.isPrefixOf t

/-- Source: the handler `.catch(err=>{ if(!err.message.includes('cancelled'))
console.error(err); })`. Reading `.includes` of a missing `message` throws a
`TypeError`, which rejects the promise returned by `.catch`. -/
def taskRejected (s : Viewer) (_c : TaskCtx) (message : Option String) : Viewer × Settled :=
  match message with
  | none => (s, .rejected (some "TypeError"))
  | some m =>
    if !includes m "cancelled" then
      ({ s with consoleErrors := s.consoleErrors + 1 }, .fulfilled none)
    else (s, .fulfilled none)

/-! ## `unloadFar` and `ensureAround` -/

/-- Source: the body of the `for(const [num, info] of rendered)` loop of
`unloadFar`. -/
def unloadStep (center : Int) (s : Viewer) (num : Int) : Viewer :=
  if |num - center| > KEEP_NEIGHBOR then
    cancelTask { s with rendered := mapDelete s.rendered num } num
  else s

/-- Source: `function unloadFar(center)`. The loop visits the keys of
`rendered`; deleting the entry being visited does not disturb the visit of
the others. -/
def unloadFar (s : Viewer) (center : Int) : Viewer :=
  (s.rendered.map Prod.fst).foldl (unloadStep center) s

/-- One `renderPage` call made by `ensureAround`, with what it returned. -/
structure Issued where
  page : Int
  scale : ℚ
  preserveFocus : Option FocusToken
  result : RenderResult
  deriving DecidableEq, Repr

/-- Source: the body of the `for(let i=start;i<=end;i++)` loop of
`ensureAround`, folded over the window. -/
def ensureLoop (preserveFocus : Option FocusToken) :
    List Int → Viewer → List Issued → Viewer × List Issued
  | [], s, promises => (s, promises)
  | i :: rest, s, promises =>
    let info := mapGet s.rendered i
    let desired := actualScaleFromUi s.uiScale
    if scaleMatches info desired then ensureLoop preserveFocus rest s promises
    else
      let pf : Option FocusToken :=
        match preserveFocus with
        | none => none
        | some p => if p.page = i then some ⟨i, p.fraction, p.oldHeight⟩ else none
      let r := renderPage s i desired pf
      ensureLoop preserveFocus rest r.1 (promises ++ [⟨i, desired, pf, r.2⟩])

/-- Source: `function ensureAround(center, preserveFocus=null)`; the result
is the state after `unloadFar(center)` and the array passed to
`Promise.all`. -/
def ensureAround (s : Viewer) (center : Int) (preserveFocus : Option FocusToken) :
    Viewer × List Issued :=
  let start := max 1 (center - KEEP_NEIGHBOR)
  let stop := min s.pageCount (center + KEEP_NEIGHBOR)
  let r := ensureLoop preserveFocus (countFrom start (stop + 1 - start).toNat) s []
  (unloadFar r.1 center, r.2)

/-! ## Settling the promises of `ensureAround` -/

/-- How the external rasterizer settles one rasterization task: the
promise fulfils (and the new inner height `newH` is then measured), or it
rejects with an error value (a cancellation rejects with a message that
contains `cancelled`). -/
inductive TaskOutcome where
  | fulfilled (newH : ℚ)
  | rejected (message : Option String)
  deriving DecidableEq, Repr

/-- The external rasterizer as an oracle: for each page, whether
`getPage` rejects (`some message`) or resolves (`none`), and how the
rasterization task of that page settles. -/
structure Rasterizer where
  getPageError : Int → Option (Option String)
  task : Int → TaskOutcome

/-- Runs the promise returned by one `renderPage` call to its settlement:
`pdfDoc.getPage(num).then(page => ...)` has no rejection handler, so a
rejected `getPage` rejects the whole promise; otherwise the callback runs and
returns the task promise with its `.then(...).catch(...)` handlers. -/
def settle (env : Rasterizer) (s : Viewer) : RenderResult → Viewer × Settled
  | .resolvedUndefined => (s, .fulfilled none)
  | .resolvedCanvas c => (s, .fulfilled (some c))
  | .fetching ctx =>
    match env.getPageError ctx.num with
    | some message => (s, .rejected message)
    | none =>
      let f := pageFetched s ctx
      match env.task ctx.num with
      | .fulfilled newH => taskFulfilled f.1 f.2 newH
      | .rejected message => taskRejected f.1 f.2 message

/-- Settles the issued promises one after the other, in issue order. -/
def settleAll (env : Rasterizer) : Viewer → List Issued → Viewer × List Settled
  | s, [] => (s, [])
  | s, i :: rest =>
    let r := settle env s i.result
    let rs := settleAll env r.1 rest
    (rs.1, r.2 :: rs.2)

/-- Source: `Promise.all(promises)`: `none` when every promise fulfilled,
else the error message of the first rejection. -/
def promiseAll : List Settled → Option (Option String)
  | [] => none
  | .fulfilled _ :: rest => promiseAll rest
  | .rejected message :: _ => some message

/-- The state after the promises issued by `ensureAround(center,
preserveFocus)` have settled, and the outcome of its `Promise.all`. -/
def ensureAroundSettled (env : Rasterizer) (s : Viewer) (center : Int)
    (preserveFocus : Option FocusToken) : Viewer × Option (Option String) :=
  let r := ensureAround s center preserveFocus
  let d := settleAll env r.1 r.2
  (d.1, promiseAll d.2)

/-- Source: `function scrollToPage(n)`, run until the promise of
`ensureAround(n)` has settled; the `.then` callback runs only on
fulfilment. -/
def scrollToPage (env : Rasterizer) (s : Viewer) (n : Int) : Viewer :=
  if n < 1 ∨ n > s.pageCount then s
  else
    let r := ensureAroundSettled env s n none
    match r.2 with
    | none => { r.1 with centered := r.1.centered ++ [n] }
    | some _ => r.1

/-! ## Visible-page detection (scroll handler) -/

/-- The `top` and `bottom` of a `getBoundingClientRect()` result. -/
structure Rect where
  top : ℚ
  bottom : ℚ
  deriving DecidableEq, Repr

/-- Source: `Math.min(Math.abs(r.top-centerY),Math.abs(r.bottom-centerY))`. -/
def edgeDist (r : Rect) (centerY : ℚ) : ℚ := min |r.top - centerY| |r.bottom - centerY|

/-- Source: `r.top<=centerY && r.bottom>=centerY`. -/
def straddles (r : Rect) (centerY : ℚ) : Bool :=
  decide (r.top ≤ centerY) && decide (r.bottom ≥ centerY)

/-- Source: `dist<bestDist`, where `bestDist` starts as `Infinity` (`none`). -/
def closer (dist : ℚ) : Option ℚ → Bool
  | none => true
  | some b => decide (dist < b)

/-- Source: the loop `for(let i=1;i<=pageCount;i++){ ... }` of the scroll
handler from counter value `i` on, over the rectangles of pages
`i, i+1, ...`, with the current `best` and `bestDist`. -/
def scanPages (centerY : ℚ) : List Rect → Int → Int → Option ℚ → Int
  | [], _, best, _ => best
  | r :: rest, i, best, bestDist =>
    if straddles r centerY then i
    else
      let dist := edgeDist r centerY
      if closer dist bestDist then scanPages centerY rest (i + 1) i (some dist)
      else scanPages centerY rest (i + 1) best bestDist

/-- Source: `let best=visiblePage,bestDist=Infinity; for(...)` of the scroll
handler; `rects` are the rectangles of pages `1..pageCount` in page order. -/
def detectVisible (visiblePage : Int) (rects : List Rect) (centerY : ℚ) : Int :=
  scanPages centerY rects 1 visiblePage none

/-- Source: the `requestAnimationFrame` callback of the scroll handler;
`crectTop` and `crectHeight` come from `container.getBoundingClientRect()`. -/
def scrollFrame (s : Viewer) (crectTop crectHeight : ℚ) (rects : List Rect) :
    Viewer × List Issued :=
  let centerY := crectTop + crectHeight / 2
  let best := detectVisible s.visiblePage rects centerY
  if best ≠ s.visiblePage then ensureAround { s with visiblePage := best } best none
  else (s, [])

/-- The rectangle of page `i` among the rectangles of pages `1, 2, ...`. -/
def pageRect (rects : List Rect) (i : Int) : Option Rect :=
  if 1 ≤ i then rects.get? (i - 1).toNat else none

/-! ## `smoothZoom` -/

/-- The closure of the `setTimeout` callback of `smoothZoom`. -/
structure ZoomTimer where
  newUi : JsNum
  focalPage : Option Int
  focalFraction : ℚ
  deriving DecidableEq, Repr

/-- Source: `function smoothZoom(newUi,focalPage=null,focalFraction=0.5)` up
to `setTimeout`: the zoom is clamped and the timer is (re)armed with the
closure returned here. The preview transform only restyles canvases. -/
def smoothZoom (newUi : JsNum) (focalPage : Option Int) (focalFraction : ℚ) : ZoomTimer :=
  ⟨clamp newUi (.fin UI_MIN) (.fin UI_MAX), focalPage, focalFraction⟩

/-- Source: `focalPage||visiblePage`; `null` and `0` are falsy. -/
def focalOr (focalPage : Option Int) (visiblePage : Int) : Int :=
  match focalPage with
  | none => visiblePage
  | some p => if p = 0 then visiblePage else p

/-- Source: the object literal `{page:focalPage||visiblePage,fraction:focalFraction}`
passed to `ensureAround` by the timer callback of `smoothZoom`. -/
def smoothZoomToken (s : Viewer) (z : ZoomTimer) : FocusToken :=
  ⟨focalOr z.focalPage s.visiblePage, some z.focalFraction, none⟩

/-- Source: the `setTimeout` callback of `smoothZoom` (the debounced
commit): `uiScale=newUi; ensureAround(focalPage||visiblePage, {...})`. The
viewer state holds a finite `uiScale`; the result is `none` when the clamped
zoom is not finite, a state outside `Viewer`. -/
def smoothZoomCommit (s : Viewer) (z : ZoomTimer) : Option (Viewer × List Issued) :=
  match z.newUi with
  | .fin newUi =>
    let s1 := { s with uiScale := newUi }
    some (ensureAround s1 (focalOr z.focalPage s1.visiblePage) (some (smoothZoomToken s1 z)))
  | _ => none

/-- Source: the click handler of `zoom-in`: `smoothZoom(uiScale + 0.25, visiblePage, 0.5)`. -/
def zoomInClick (s : Viewer) : ZoomTimer :=
  smoothZoom (.fin (s.uiScale + 25 / 100)) (some s.visiblePage) (1 / 2)

/-- Source: the click handler of `zoom-out`: `smoothZoom(uiScale - 0.25, visiblePage, 0.5)`. -/
def zoomOutClick (s : Viewer) : ZoomTimer :=
  smoothZoom (.fin (s.uiScale - 25 / 100)) (some s.visiblePage) (1 / 2)

/-! ## Scenarios -/

/-- The `getPage` callbacks of all pending promises run, in issue order. -/
def fetchAll : Viewer → List Issued → Viewer
  | s, [] => s
  | s, i :: rest =>
    match i.result with
    | .fetching ctx => fetchAll (pageFetched s ctx).1 rest
    | _ => fetchAll s rest

/-- The `getPage` callback of one promise runs, if the promise is pending. -/
def fetchResult (s : Viewer) : RenderResult → Viewer
  | .fetching ctx => (pageFetched s ctx).1
  | _ => s

/-- A call `renderPage(num, scale, pf)` whose `getPage` resolves (its task is
registered and in flight), then a second such call and its `getPage`. -/
def twiceAfterFetch (s : Viewer) (num : Int) (scale : ℚ) (pf : Option FocusToken) : Viewer :=
  let r1 := renderPage s num scale pf
  let r2 := renderPage (fetchResult r1.1 r1.2) num scale pf
  fetchResult r2.1 r2.2

/-- Scroll scenario: a ten-page document is loaded, the visible page becomes
5 and `ensureAround(5)` runs, and `getPage` has resolved for pages 4, 5 and 6,
whose rasterization tasks are in flight with no bitmap cached yet. -/
def inFlightAround5 : Viewer :=
  let r := ensureAround { loaded 10 with visiblePage := 5 } 5 none
  fetchAll r.1 r.2

/-- Re-request scenario, first call: `renderPage(1, 0.8)` on a freshly
loaded ten-page document. -/
def staleFirst : Viewer × RenderResult := renderPage (loaded 10) 1 (8 / 10) none

/-- Re-request scenario, second call: `renderPage(1, 1.6)` before the
`getPage` of the first call has resolved. -/
def staleSecond : Viewer × RenderResult := renderPage staleFirst.1 1 (16 / 10) none

/-- Re-request scenario: `getPage` of the first call resolves. -/
def staleOlderTask : Viewer × TaskCtx := pageFetched staleSecond.1 ⟨1, 8 / 10, none⟩

/-- Re-request scenario: `getPage` of the second call resolves. -/
def staleNewerTask : Viewer × TaskCtx := pageFetched staleOlderTask.1 ⟨1, 16 / 10, none⟩

/-- Re-request scenario: the newer task fulfils. -/
def staleNewerDone : Viewer × Settled := taskFulfilled staleNewerTask.1 staleNewerTask.2 2000

/-- Re-request scenario: the older task fulfils afterwards. -/
def staleOlderDone : Viewer × Settled := taskFulfilled staleNewerDone.1 staleOlderTask.2 1000

/-- Failure scenario: page 1 of a ten-page document is requested, its
`getPage` resolves and its task is registered. -/
def rasterStarted : Viewer × TaskCtx :=
  pageFetched (renderPage (loaded 10) 1 (8 / 10) none).1 ⟨1, 8 / 10, none⟩

/-- Failure scenario: the task promise rejects with a rasterization error. -/
def rasterFailed : Viewer × Settled :=
  taskRejected rasterStarted.1 rasterStarted.2 (some "Invalid page structure")

/-- A rasterizer whose `getPage(1)` rejects; every task fulfils. -/
def fetchFailure : Rasterizer :=
  ⟨fun i => if i = 1 then some (some "Invalid page request") else none,
   fun _ => .fulfilled 1000⟩

/-- A rasterizer whose task for page 1 rejects with an error value that has
no `message`; every `getPage` resolves and every other task fulfils. -/
def messagelessFailure : Rasterizer :=
  ⟨fun _ => none, fun i => if i = 1 then .rejected none else .fulfilled 1000⟩

/-- A rasterizer that never fails; every page measures 1000 high. -/
def rasterOk : Rasterizer := ⟨fun _ => none, fun _ => .fulfilled 1000⟩

/-- Zoom scenario: a ten-page document after its initial `ensureAround(1)`
has settled (pages 1 and 2 cached at scale 0.8). -/
def initialRendered : Viewer := (ensureAroundSettled rasterOk (loaded 10) 1 none).1

/-- Zoom scenario: the debounced commit of a click on zoom-in. -/
def zoomCommitted : Option (Viewer × List Issued) :=
  smoothZoomCommit initialRendered (zoomInClick initialRendered)

/-- Zoom scenario: `getPage(1)` of the commit resolves and the new task of
page 1 fulfils; the page now measures 1250 high. -/
def zoomRerendered : Option (Viewer × Settled) :=
  zoomCommitted.map fun r =>
    let f := pageFetched r.1 ⟨1, actualScaleFromUi (5 / 4), some ⟨1, some (1 / 2), none⟩⟩
    taskFulfilled f.1 f.2 1250

/-! ## Lemmas on maps and on the state fields a call leaves alone -/

theorem mapGet_mapSet_same {α : Type} (m : List (Int × α)) (n : Int) (v : α) :
    mapGet (mapSet m n v) n = some v := by
  induction m with
  | nil => simp [mapSet, mapGet]
  | cons p m ih =>
    obtain ⟨k, w⟩ := p
    by_cases h : k = n
    · simp [mapSet, mapGet, h]
    · simp [mapSet, mapGet, h, ih]

theorem mapGet_mapDelete_same {α : Type} (m : List (Int × α)) (n : Int) :
    mapGet (mapDelete m n) n = none := by
  induction m with
  | nil => simp [mapDelete, mapGet]
  | cons p m ih =>
    obtain ⟨k, w⟩ := p
    by_cases h : k = n
    · simp [mapDelete, h, ih]
    · simp [mapDelete, mapGet, h, ih]

theorem cancelTask_rendered (s : Viewer) (num : Int) :
    (cancelTask s num).rendered = s.rendered := by
  unfold cancelTask
  split <;> rfl

theorem cancelTask_uiScale (s : Viewer) (num : Int) :
    (cancelTask s num).uiScale = s.uiScale := by
  unfold cancelTask
  split <;> rfl

theorem cancelTask_pageShells (s : Viewer) (num : Int) :
    (cancelTask s num).pageShells = s.pageShells := by
  unfold cancelTask
  split <;> rfl

theorem renderPage_rendered (s : Viewer) (num : Int) (scale : ℚ) (pf : Option FocusToken) :
    (renderPage s num scale pf).1.rendered = s.rendered := by
  unfold renderPage
  repeat (first | rfl | simp only [cancelTask_rendered] | split)

theorem renderPage_uiScale (s : Viewer) (num : Int) (scale : ℚ) (pf : Option FocusToken) :
    (renderPage s num scale pf).1.uiScale = s.uiScale := by
  unfold renderPage
  repeat (first | rfl | simp only [cancelTask_uiScale] | split)

theorem mem_countFrom (n : Nat) : ∀ (a i : Int), i ∈ countFrom a n ↔ a ≤ i ∧ i < a + n := by
  induction n with
  | zero => intro a i; simp [countFrom]
  | succ n ih =>
    intro a i
    simp only [countFrom, List.mem_cons, ih, Nat.cast_add, Nat.cast_one]
    constructor
    · rintro (h | ⟨h1, h2⟩) <;> omega
    · intro ⟨h1, h2⟩
      by_cases h : i = a
      · exact Or.inl h
      · exact Or.inr (by omega)

theorem ensureLoop_pages (pf : Option FocusToken) :
    ∀ (l : List Int) (s : Viewer) (acc : List Issued),
      (ensureLoop pf l s acc).2.map Issued.page =
        acc.map Issued.page ++
          l.filter fun i => !scaleMatches (mapGet s.rendered i) (actualScaleFromUi s.uiScale) := by
  intro l
  induction l with
  | nil => intro s acc; simp [ensureLoop]
  | cons i rest ih =>
    intro s acc
    by_cases h : scaleMatches (mapGet s.rendered i) (actualScaleFromUi s.uiScale) = true
    · simp [ensureLoop, h, ih]
    · simp [ensureLoop, h, ih, renderPage_rendered, renderPage_uiScale]

/-! ## Lemmas on the visible-page scan -/

theorem closer_trans {d e : ℚ} {bd : Option ℚ} (h : closer e bd = true) (hd : d < e) :
    closer d bd = true := by
  cases bd with
  | none => rfl
  | some b =>
    simp only [closer, decide_eq_true_eq] at h ⊢
    exact lt_trans hd h

theorem scanPages_first_straddle (y : ℚ) :
    ∀ (rs : List Rect) (i best : Int) (bd : Option ℚ),
      (∃ r ∈ rs, straddles r y = true) →
      ∃ (k : Nat) (r : Rect), rs.get? k = some r ∧ scanPages y rs i best bd = i + k ∧
        straddles r y = true ∧
        ∀ (j : Nat) (r' : Rect), j < k → rs.get? j = some r' → straddles r' y = false := by
  intro rs
  induction rs with
  | nil => intro i best bd h; simp at h
  | cons r rest ih =>
    intro i best bd h
    by_cases hr : straddles r y = true
    · refine ⟨0, r, rfl, by simp [scanPages, hr], hr, ?_⟩
      intro j r' hj
      omega
    · have hrest : ∃ r' ∈ rest, straddles r' y = true := by
        obtain ⟨r', hmem, hs⟩ := h
        rcases List.mem_cons.mp hmem with rfl | hm
        · exact absurd hs hr
        · exact ⟨r', hm, hs⟩
      have step : ∀ best' bd', ∃ (k : Nat) (r0 : Rect), (r :: rest).get? k = some r0 ∧
          scanPages y rest (i + 1) best' bd' = i + k ∧ straddles r0 y = true ∧
          ∀ (j : Nat) (r' : Rect), j < k → (r :: rest).get? j = some r' →
            straddles r' y = false := by
        intro best' bd'
        obtain ⟨k, r0, hk, hres, hs, hlt⟩ := ih (i + 1) best' bd' hrest
        refine ⟨k + 1, r0, by simpa using hk, by rw [hres]; push_cast; ring, hs, ?_⟩
        intro j r' hj hget
        cases j with
        | zero =>
          simp at hget
          subst hget
          simpa using hr
        | succ j => exact hlt j r' (by omega) (by simpa using hget)
      by_cases hc : closer (edgeDist r y) bd = true
      · simpa [scanPages, hr, hc] using step i (some (edgeDist r y))
      · simpa [scanPages, hr, hc] using step best bd

theorem scanPages_nearest (y : ℚ) :
    ∀ (rs : List Rect) (i best : Int) (bd : Option ℚ),
      (∀ r ∈ rs, straddles r y = false) →
      (scanPages y rs i best bd = best ∧ ∀ r ∈ rs, closer (edgeDist r y) bd = false) ∨
      ∃ (k : Nat) (r : Rect), rs.get? k = some r ∧ scanPages y rs i best bd = i + k ∧
        closer (edgeDist r y) bd = true ∧
        (∀ (j : Nat) (r' : Rect), rs.get? j = some r' → edgeDist r y ≤ edgeDist r' y) ∧
        ∀ (j : Nat) (r' : Rect), j < k → rs.get? j = some r' → edgeDist r y < edgeDist r' y := by
  intro rs
  induction rs with
  | nil => intro i best bd _; left; simp [scanPages]
  | cons r rest ih =>
    intro i best bd h
    have hr : straddles r y = false := h r (List.mem_cons_self _ _)
    have hrest : ∀ r' ∈ rest, straddles r' y = false :=
      fun r' hm => h r' (List.mem_cons_of_mem _ hm)
    by_cases hc : closer (edgeDist r y) bd = true
    · right
      have hunf : scanPages y (r :: rest) i best bd
          = scanPages y rest (i + 1) i (some (edgeDist r y)) := by
        simp [scanPages, hr, hc]
      rcases ih (i + 1) i (some (edgeDist r y)) hrest with ⟨hres, hall⟩ | ⟨k, r0, hk, hres, hcl, hmin, hlt⟩
      · refine ⟨0, r, rfl, by rw [hunf, hres]; simp, hc, ?_, ?_⟩
        · intro j r' hget
          cases j with
          | zero => simp at hget; subst hget; exact le_refl _
          | succ j =>
            have hm : r' ∈ rest := List.get?_mem (by simpa using hget)
            have := hall r' hm
            simp only [closer, decide_eq_false_iff_not, not_lt] at this
            exact this
        · intro j r' hj; omega
      · have hlt0 : edgeDist r0 y < edgeDist r y := by
          simpa [closer] using hcl
        refine ⟨k + 1, r0, by simpa using hk, by rw [hunf, hres]; push_cast; ring,
          closer_trans hc hlt0, ?_, ?_⟩
        · intro j r' hget
          cases j with
          | zero => simp at hget; subst hget; exact le_of_lt hlt0
          | succ j => exact hmin j r' (by simpa using hget)
        · intro j r' hj hget
          cases j with
          | zero => simp at hget; subst hget; exact hlt0
          | succ j => exact hlt j r' (by omega) (by simpa using hget)
    · have hunf : scanPages y (r :: rest) i best bd = scanPages y rest (i + 1) best bd := by
        simp [scanPages, hr, hc]
      have hcf : closer (edgeDist r y) bd = false := by simpa using hc
      rcases ih (i + 1) best bd hrest with ⟨hres, hall⟩ | ⟨k, r0, hk, hres, hcl, hmin, hlt⟩
      · left
        refine ⟨by rw [hunf, hres], ?_⟩
        intro r' hm
        rcases List.mem_cons.mp hm with rfl | hm'
        · exact hcf
        · exact hall r' hm'
      · right
        have hlt0 : edgeDist r0 y < edgeDist r y := by
          cases bd with
          | none => simp [closer] at hcf
          | some b =>
            simp only [closer, decide_eq_false_iff_not, not_lt] at hcf
            simp only [closer, decide_eq_true_eq] at hcl
            exact lt_of_lt_of_le hcl hcf
        refine ⟨k + 1, r0, by simpa using hk, by rw [hunf, hres]; push_cast; ring, hcl, ?_, ?_⟩
        · intro j r' hget
          cases j with
          | zero => simp at hget; subst hget; exact le_of_lt hlt0
          | succ j => exact hmin j r' (by simpa using hget)
        · intro j r' hj hget
          cases j with
          | zero => simp at hget; subst hget; exact hlt0
          | succ j => exact hlt j r' (by omega) (by simpa using hget)

theorem straddles_iff (r : Rect) (y : ℚ) : straddles r y = true ↔ r.top ≤ y ∧ y ≤ r.bottom := by
  simp [straddles]

theorem pageRect_succ (rects : List Rect) (k : Nat) : pageRect rects (1 + (k : Int)) = rects.get? k := by
  have h1 : (1 : Int) ≤ 1 + (k : Int) := by omega
  have h2 : (1 + (k : Int) - 1).toNat = k := by omega
  simp [pageRect, h1, h2]

theorem pageRect_some {rects : List Rect} {j : Int} {r : Rect} (h : pageRect rects j = some r) :
    ∃ n : Nat, j = 1 + (n : Int) ∧ rects.get? n = some r := by
  unfold pageRect at h
  split at h
  · exact ⟨(j - 1).toNat, by omega, h⟩
  · simp at h

/-! ## Lemmas on `renderPage` and on the calls issued by `ensureAround` -/

theorem cancelTask_pdfDoc (s : Viewer) (num : Int) : (cancelTask s num).pdfDoc = s.pdfDoc := by
  unfold cancelTask
  split <;> rfl

theorem cancelTask_pageCount (s : Viewer) (num : Int) :
    (cancelTask s num).pageCount = s.pageCount := by
  unfold cancelTask
  split <;> rfl

theorem cancelTask_nextTask (s : Viewer) (num : Int) :
    (cancelTask s num).nextTask = s.nextTask := by
  unfold cancelTask
  split <;> rfl

theorem cancelTask_renderCalls (s : Viewer) (num : Int) :
    (cancelTask s num).renderCalls = s.renderCalls := by
  unfold cancelTask
  split <;> rfl

theorem cancelTask_renderTasks (s : Viewer) (num : Int) :
    mapGet (cancelTask s num).renderTasks num = none := by
  unfold cancelTask
  split
  · assumption
  · exact mapGet_mapDelete_same _ _

theorem cancelTask_registered (s : Viewer) (num : Int) (t : Nat)
    (h : mapGet s.renderTasks num = some t) : t ∈ (cancelTask s num).cancelled := by
  unfold cancelTask
  rw [h]
  simp

/-- A request for a valid page with a shell and no matching cached bitmap
cancels the registered task, if any, and fetches the page. -/
theorem renderPage_miss (s : Viewer) (num : Int) (scale : ℚ) (pf : Option FocusToken)
    (hdoc : s.pdfDoc = true) (hlo : 1 ≤ num) (hhi : num ≤ s.pageCount)
    (hshell : num ∈ s.pageShells)
    (hmiss : scaleMatches (mapGet s.rendered num) scale = false) :
    renderPage s num scale pf = (cancelTask s num, .fetching ⟨num, scale, pf⟩) := by
  have hrange : ¬ (num < 1 ∨ num > s.pageCount) := by omega
  unfold renderPage
  cases hg : mapGet s.rendered num with
  | none => simp [hdoc, hrange, cancelTask_pageShells, hshell]
  | some e =>
    rw [hg] at hmiss
    simp [hdoc, hrange, cancelTask_pageShells, hshell, hmiss]

/-- A request whose page has a cached bitmap of matching scale changes
nothing and resolves with the cached canvas. -/
theorem renderPage_hit (s : Viewer) (num : Int) (scale : ℚ) (pf : Option FocusToken)
    (info : RenderedInfo) (hdoc : s.pdfDoc = true) (hlo : 1 ≤ num) (hhi : num ≤ s.pageCount)
    (hget : mapGet s.rendered num = some info)
    (hhit : scaleMatches (some info) scale = true) :
    renderPage s num scale pf = (s, .resolvedCanvas info.canvas) := by
  have hrange : ¬ (num < 1 ∨ num > s.pageCount) := by omega
  unfold renderPage
  simp [hdoc, hrange, hget, hhit]

/-! ## Evaluation of the zoom scenario -/

theorem initialRendered_eq : initialRendered =
    { pdfDoc := true, pageCount := 10, uiScale := 1, visiblePage := 1,
      pageShells := [1, 2, 3, 4, 5, 6, 7, 8, 9, 10],
      rendered := [(1, ⟨0, 8 / 10⟩), (2, ⟨1, 8 / 10⟩)], renderTasks := [],
      scrollTop := 0, centered := [], nextTask := 2,
      renderCalls := [⟨0, 1, 8 / 10⟩, ⟨1, 2, 8 / 10⟩], cancelled := [], consoleErrors := 0 } := by
  simp [initialRendered, ensureAroundSettled, ensureAround, loaded, countFrom, ensureLoop,
    KEEP_NEIGHBOR, mapGet, scaleMatches, renderPage, cancelTask, unloadFar, unloadStep,
    settleAll, settle, rasterOk, pageFetched, taskFulfilled, focusAction, applyFocus, mapSet,
    mapDelete, actualScaleFromUi, BASELINE]

theorem zoomCommitted_eq : zoomCommitted = some
    ({ pdfDoc := true, pageCount := 10, uiScale := 5 / 4, visiblePage := 1,
       pageShells := [1, 2, 3, 4, 5, 6, 7, 8, 9, 10],
       rendered := [(1, ⟨0, 8 / 10⟩), (2, ⟨1, 8 / 10⟩)], renderTasks := [],
       scrollTop := 0, centered := [], nextTask := 2,
       renderCalls := [⟨0, 1, 8 / 10⟩, ⟨1, 2, 8 / 10⟩], cancelled := [], consoleErrors := 0 },
     [⟨1, actualScaleFromUi (5 / 4), some ⟨1, some (1 / 2), none⟩,
        .fetching ⟨1, actualScaleFromUi (5 / 4), some ⟨1, some (1 / 2), none⟩⟩⟩,
      ⟨2, actualScaleFromUi (5 / 4), none, .fetching ⟨2, actualScaleFromUi (5 / 4), none⟩⟩]) := by
  unfold zoomCommitted
  rw [initialRendered_eq]
  have h1 : clamp (.fin (1 + 25 / 100)) (.fin UI_MIN) (.fin UI_MAX) = .fin (5 / 4) := by
    simp only [clamp, jsMin, jsMax, UI_MIN, UI_MAX]
    norm_num
  have h2 : ∀ c, scaleMatches (some ⟨c, 8 / 10⟩) (actualScaleFromUi (5 / 4)) = false := by
    intro c
    have : ¬ (|(8 / 10 : ℚ) - 5 / 4 * (8 / 10)| < 1 / 1000) := by
      rw [abs_of_neg (by norm_num)]
      norm_num
    simpa [scaleMatches, actualScaleFromUi, BASELINE] using this
  simp [smoothZoomCommit, zoomInClick, smoothZoom, h1, h2, focalOr, smoothZoomToken,
    ensureAround, countFrom, ensureLoop, KEEP_NEIGHBOR, mapGet, renderPage, cancelTask,
    unloadFar, unloadStep]

/-! ## Claims -/

/-- C9 (counterexample): `clamp(NaN, UI_MIN, UI_MAX)` is `NaN`, which is
neither `>= 0.5` nor `<= 3.0`. -/
theorem clamp_nan_out_of_range :
    clamp .nan (.fin UI_MIN) (.fin UI_MAX) = .nan ∧
      jsLe (.fin (1 / 2)) (clamp .nan (.fin UI_MIN) (.fin UI_MAX)) = false ∧
      jsLe (clamp .nan (.fin UI_MIN) (.fin UI_MAX)) (.fin 3) = false := by
  refine ⟨rfl, rfl, rfl⟩

/-- C9 (amended): for every number `v` other than `NaN`, the infinities
included, `clamp(v, UI_MIN, UI_MAX)` is a finite number in the closed
interval `[0.5, 3.0]` and clamping it again changes nothing. -/
theorem clamp_zoom_range_idempotent (v : JsNum) (hv : v ≠ .nan) :
    (∃ q : ℚ, clamp v (.fin UI_MIN) (.fin UI_MAX) = .fin q ∧ 1 / 2 ≤ q ∧ q ≤ 3) ∧
      jsLe (.fin (1 / 2)) (clamp v (.fin UI_MIN) (.fin UI_MAX)) = true ∧
      jsLe (clamp v (.fin UI_MIN) (.fin UI_MAX)) (.fin 3) = true ∧
      clamp (clamp v (.fin UI_MIN) (.fin UI_MAX)) (.fin UI_MIN) (.fin UI_MAX)
        = clamp v (.fin UI_MIN) (.fin UI_MAX) := by
  have key : ∃ q : ℚ, clamp v (.fin UI_MIN) (.fin UI_MAX) = .fin q ∧ 1 / 2 ≤ q ∧ q ≤ 3 := by
    cases v with
    | nan => exact absurd rfl hv
    | negInf => exact ⟨1 / 2, by simp [clamp, jsMin, jsMax, UI_MIN], le_refl _, by norm_num⟩
    | posInf =>
      refine ⟨3, ?_, by norm_num, le_refl _⟩
      simp only [clamp, jsMin, jsMax, UI_MIN, UI_MAX]
      norm_num
    | fin x =>
      refine ⟨max (1 / 2) (min 3 x), by simp [clamp, jsMin, jsMax, UI_MIN, UI_MAX],
        le_max_left _ _, max_le (by norm_num) (min_le_left _ _)⟩
  obtain ⟨q, hq, hlo, hhi⟩ := key
  refine ⟨⟨q, hq, hlo, hhi⟩, ?_, ?_, ?_⟩
  · rw [hq]; simpa [jsLe] using hlo
  · rw [hq]; simpa [jsLe] using hhi
  · rw [hq]
    simp only [clamp, jsMin, jsMax, UI_MIN, UI_MAX]
    rw [min_eq_right hhi, max_eq_right hlo]

/-- C9 (amended) at `v = Infinity`, which clamps to `3`. -/
theorem clamp_zoom_range_idempotent_witness :
    jsLe (.fin (1 / 2)) (clamp .posInf (.fin UI_MIN) (.fin UI_MAX)) = true ∧
      jsLe (clamp .posInf (.fin UI_MIN) (.fin UI_MAX)) (.fin 3) = true :=
  ⟨(clamp_zoom_range_idempotent .posInf (by decide)).2.1,
    (clamp_zoom_range_idempotent .posInf (by decide)).2.2.1⟩


/-- C10: when the focal token names the rendered page, has a numeric
fraction and a known positive `oldHeight`, the completion callback of
`renderPage` adds exactly `fraction * newH - fraction * oldHeight` to the
container scroll offset and does not center; when `oldHeight` is absent or
not positive it leaves the scroll offset alone and centers the page; and for
`oldHeight = 1000`, `fraction = 0.4`, `newH = 1500` the delta is `200`. -/
theorem renderPage_completion_focus_delta (s : Viewer) (c : TaskCtx) (newH : ℚ)
    (pf : FocusToken) (fraction : ℚ) (hpf : c.preserveFocus = some pf)
    (hpage : pf.page = c.num) (hfrac : pf.fraction = some fraction) :
    (∀ oldHeight, pf.oldHeight = some oldHeight → 0 < oldHeight →
        (taskFulfilled s c newH).1.scrollTop
            = s.scrollTop + (fraction * newH - fraction * oldHeight) ∧
          (taskFulfilled s c newH).1.centered = s.centered) ∧
      ((pf.oldHeight = none ∨ ∃ oldHeight, pf.oldHeight = some oldHeight ∧ oldHeight ≤ 0) →
        (taskFulfilled s c newH).1.scrollTop = s.scrollTop ∧
          (taskFulfilled s c newH).1.centered = s.centered ++ [c.num]) ∧
      focusAction (some ⟨c.num, some (4 / 10), some 1000⟩) c.num 1500 = .scrollBy 200 := by
  refine ⟨?_, ?_, ?_⟩
  · intro h hh hpos
    have hne : h ≠ 0 := ne_of_gt hpos
    simp [taskFulfilled, focusAction, applyFocus, hpf, hpage, hfrac, hh, hne, hpos]
  · rintro (hn | ⟨h, hh, hle⟩)
    · simp [taskFulfilled, focusAction, applyFocus, hpf, hpage, hfrac, hn]
    · by_cases h0 : h = 0
      · simp [taskFulfilled, focusAction, applyFocus, hpf, hpage, hfrac, hh, h0]
      · have hnp : ¬ 0 < h := not_lt.mpr hle
        simp [taskFulfilled, focusAction, applyFocus, hpf, hpage, hfrac, hh, h0, hnp]
  · simp [focusAction]
    norm_num

/-- C10 at `oldHeight = 1000`, `fraction = 0.4`, `newH = 1500` on a freshly loaded
document. -/
theorem renderPage_completion_focus_delta_witness :
    (taskFulfilled (loaded 10) ⟨1, 1, some ⟨1, some (4 / 10), some 1000⟩, 0, 0⟩ 1500).1.scrollTop
        = (loaded 10).scrollTop + (4 / 10 * 1500 - 4 / 10 * 1000) ∧
      (taskFulfilled (loaded 10) ⟨1, 1, some ⟨1, some (4 / 10), some 1000⟩, 0, 0⟩ 1500).1.centered
        = (loaded 10).centered :=
  (renderPage_completion_focus_delta (loaded 10)
      ⟨1, 1, some ⟨1, some (4 / 10), some 1000⟩, 0, 0⟩ 1500
      ⟨1, some (4 / 10), some 1000⟩ (4 / 10) rfl rfl rfl).1 1000 rfl (by norm_num)

/-- C4: the pages for which `ensureAround(center)` calls `renderPage` are
exactly the indices `i` with `max(1, center - 1) <= i <= min(pageCount,
center + 1)` whose cached bitmap is absent or has a scale that differs from
`uiScale * BASELINE` by at least `0.001`; with an empty cache, ten pages and
`center = 1` they are pages 1 and 2. -/
theorem ensureAround_requested_window (s : Viewer) (center : Int)
    (preserveFocus : Option FocusToken) (i : Int) :
    (i ∈ (ensureAround s center preserveFocus).2.map Issued.page ↔
        max 1 (center - 1) ≤ i ∧ i ≤ min s.pageCount (center + 1) ∧
          (mapGet s.rendered i = none ∨
            ∃ info, mapGet s.rendered i = some info ∧
              |info.scale - s.uiScale * BASELINE| ≥ 1 / 1000)) ∧
      (ensureAround (loaded 10) 1 none).2.map Issued.page = [1, 2] := by
  refine ⟨?_, by decide⟩
  simp only [ensureAround, ensureLoop_pages, List.map_nil, List.nil_append, List.mem_filter,
    mem_countFrom, KEEP_NEIGHBOR, actualScaleFromUi]
  have hcache : (!scaleMatches (mapGet s.rendered i) (s.uiScale * BASELINE)) = true ↔
      (mapGet s.rendered i = none ∨
        ∃ info, mapGet s.rendered i = some info ∧
          |info.scale - s.uiScale * BASELINE| ≥ 1 / 1000) := by
    cases hg : mapGet s.rendered i with
    | none => simp [scaleMatches]
    | some info => simp [scaleMatches]
  rw [hcache]
  constructor
  · rintro ⟨⟨h1, h2⟩, h3⟩
    refine ⟨h1, ?_, h3⟩
    omega
  · rintro ⟨h1, h2, h3⟩
    refine ⟨⟨h1, ?_⟩, h3⟩
    omega

/-- C5: for a non-empty list of page rectangles in ascending page order and
a viewport center `y`, the scroll handler's scan returns the lowest-index
page with `top <= y <= bottom` if some page satisfies that, and otherwise the
lowest-index page minimising `min(|top - y|, |bottom - y|)`; for rectangles
`[(0,800),(800,1600)]` and `y = 800` it returns page 1. -/
theorem detectVisible_straddle_or_nearest (visiblePage : Int) (rects : List Rect) (y : ℚ)
    (hne : rects ≠ []) :
    (∃ r, pageRect rects (detectVisible visiblePage rects y) = some r ∧
      ((∃ j r', pageRect rects j = some r' ∧ r'.top ≤ y ∧ y ≤ r'.bottom) →
        (r.top ≤ y ∧ y ≤ r.bottom) ∧
          ∀ j r', j < detectVisible visiblePage rects y → pageRect rects j = some r' →
            ¬ (r'.top ≤ y ∧ y ≤ r'.bottom)) ∧
      ((¬ ∃ j r', pageRect rects j = some r' ∧ r'.top ≤ y ∧ y ≤ r'.bottom) →
        (∀ j r', pageRect rects j = some r' →
          min |r.top - y| |r.bottom - y| ≤ min |r'.top - y| |r'.bottom - y|) ∧
          ∀ j r', j < detectVisible visiblePage rects y → pageRect rects j = some r' →
            min |r.top - y| |r.bottom - y| < min |r'.top - y| |r'.bottom - y|)) ∧
      detectVisible visiblePage [⟨0, 800⟩, ⟨800, 1600⟩] 800 = 1 := by
  refine ⟨?_, by simp [detectVisible, scanPages, straddles]⟩
  by_cases hex : ∃ r ∈ rects, straddles r y = true
  · obtain ⟨k, r, hk, hres, hs, hlt⟩ := scanPages_first_straddle y rects 1 visiblePage none hex
    have hb : detectVisible visiblePage rects y = 1 + (k : Int) := hres
    refine ⟨r, by rw [hb, pageRect_succ]; exact hk, ?_, ?_⟩
    · intro _
      refine ⟨(straddles_iff r y).mp hs, ?_⟩
      intro j r' hj hget
      obtain ⟨n, rfl, hn⟩ := pageRect_some hget
      have hf := hlt n r' (by omega) hn
      rw [← straddles_iff, hf]
      simp
    · intro hno
      exfalso
      apply hno
      obtain ⟨r0, hm, hs0⟩ := hex
      obtain ⟨n, hn⟩ := List.mem_iff_get?.mp hm
      exact ⟨1 + (n : Int), r0, by rw [pageRect_succ]; exact hn, (straddles_iff r0 y).mp hs0⟩
  · have hall : ∀ r ∈ rects, straddles r y = false := by
      intro r hm
      by_contra hc
      exact hex ⟨r, hm, by simpa using hc⟩
    rcases scanPages_nearest y rects 1 visiblePage none hall with
      ⟨_, hcl⟩ | ⟨k, r, hk, hres, _, hmin, hlt⟩
    · obtain ⟨r0, hm⟩ := List.exists_mem_of_ne_nil rects hne
      have := hcl r0 hm
      simp [closer] at this
    · have hb : detectVisible visiblePage rects y = 1 + (k : Int) := hres
      refine ⟨r, by rw [hb, pageRect_succ]; exact hk, ?_, ?_⟩
      · rintro ⟨j, r', hget, hs⟩
        exfalso
        obtain ⟨n, rfl, hn⟩ := pageRect_some hget
        have hf := hall r' (List.get?_mem hn)
        rw [(straddles_iff r' y).mpr hs] at hf
        simp at hf
      · intro _
        refine ⟨?_, ?_⟩
        · intro j r' hget
          obtain ⟨n, rfl, hn⟩ := pageRect_some hget
          exact hmin n r' hn
        · intro j r' hj hget
          obtain ⟨n, rfl, hn⟩ := pageRect_some hget
          exact hlt n r' (by omega) hn

/-- C5 at rectangles `[(0,800),(810,1600)]` and `y = 805`, where no page
straddles the center. -/
theorem detectVisible_straddle_or_nearest_witness :
    ∃ r, pageRect [⟨0, 800⟩, ⟨810, 1600⟩] (detectVisible 2 [⟨0, 800⟩, ⟨810, 1600⟩] 805) = some r ∧
      ((∃ j r', pageRect [⟨0, 800⟩, ⟨810, 1600⟩] j = some r' ∧ r'.top ≤ 805 ∧ 805 ≤ r'.bottom) →
        (r.top ≤ 805 ∧ 805 ≤ r.bottom) ∧
          ∀ j r', j < detectVisible 2 [⟨0, 800⟩, ⟨810, 1600⟩] 805 →
            pageRect [⟨0, 800⟩, ⟨810, 1600⟩] j = some r' →
            ¬ (r'.top ≤ 805 ∧ 805 ≤ r'.bottom)) ∧
      ((¬ ∃ j r', pageRect [⟨0, 800⟩, ⟨810, 1600⟩] j = some r' ∧ r'.top ≤ 805 ∧ 805 ≤ r'.bottom) →
        (∀ j r', pageRect [⟨0, 800⟩, ⟨810, 1600⟩] j = some r' →
          min |r.top - 805| |r.bottom - 805| ≤ min |r'.top - 805| |r'.bottom - 805|) ∧
          ∀ j r', j < detectVisible 2 [⟨0, 800⟩, ⟨810, 1600⟩] 805 →
            pageRect [⟨0, 800⟩, ⟨810, 1600⟩] j = some r' →
            min |r.top - 805| |r.bottom - 805| < min |r'.top - 805| |r'.bottom - 805|) :=
  (detectVisible_straddle_or_nearest 2 [⟨0, 800⟩, ⟨810, 1600⟩] 805 (by simp)).1

/-- C1 (fails on the code): `unloadFar` only visits the keys of `rendered`.
With tasks in flight for pages 4, 5 and 6 and nothing cached, `unloadFar(8)`
leaves the task of page 4 registered although `|4 - 8| > 1`, and cancels
nothing. -/
theorem unloadFar_keeps_uncached_far_task :
    mapGet inFlightAround5.rendered 4 = none ∧
      mapGet inFlightAround5.renderTasks 4 = some 0 ∧
      |(4 : Int) - 8| > KEEP_NEIGHBOR ∧
      mapGet (unloadFar inFlightAround5 8).renderTasks 4 = some 0 ∧
      (unloadFar inFlightAround5 8).cancelled = [] := by
  decide

/-- C2 (fails on the code): the completion callback commits without looking
at `renderTasks`. Page 1 is requested at scale 0.8 and again at 1.6 before
the first `getPage` resolves; both tasks get registered in turn, the newer
one fulfils and installs its bitmap, then the older one, which is not the
registered task, fulfils and replaces that bitmap with its own. -/
theorem stale_completion_overwrites_newer_bitmap :
    staleFirst.2 = .fetching ⟨1, 8 / 10, none⟩ ∧
      staleSecond.2 = .fetching ⟨1, 16 / 10, none⟩ ∧
      mapGet staleNewerTask.1.renderTasks 1 = some staleNewerTask.2.task ∧
      staleOlderTask.2.task ≠ staleNewerTask.2.task ∧
      mapGet staleNewerDone.1.rendered 1 = some ⟨staleNewerTask.2.canvas, 16 / 10⟩ ∧
      mapGet staleNewerDone.1.renderTasks 1 = none ∧
      mapGet staleOlderDone.1.rendered 1 = some ⟨staleOlderTask.2.canvas, 8 / 10⟩ := by
  refine ⟨rfl, rfl, rfl, by decide, rfl, rfl, rfl⟩

/-- C6 (fails on the code): `getPage(num).then(...)` has no rejection
handler and the `.catch` handler reads `err.message.includes`. When
`getPage(1)` rejects, the `Promise.all` of `ensureAround(1)` rejects and the
scroll chained on it by `scrollToPage(1)` never runs; when the task of page 1
rejects with an error value that has no `message`, `Promise.all` rejects with
the `TypeError` thrown inside the handler. -/
theorem ensureAround_rejects_on_fetch_failure :
    (ensureAroundSettled fetchFailure (loaded 10) 1 none).2
        = some (some "Invalid page request") ∧
      (scrollToPage fetchFailure (loaded 10) 1).centered = [] ∧
      (scrollToPage rasterOk (loaded 10) 1).centered = [1] ∧
      (ensureAroundSettled messagelessFailure (loaded 10) 1 none).2 = some (some "TypeError") := by
  refine ⟨rfl, rfl, rfl, rfl⟩

/-- C7 (fails on the code): only the fulfilment callback runs
`renderTasks.delete(num)`. When the registered task of page 1 rejects with a
rasterization error, the error is logged and the entry of page 1 stays in
`renderTasks`. -/
theorem failed_task_stays_registered :
    mapGet rasterStarted.1.renderTasks 1 = some rasterStarted.2.task ∧
      rasterFailed.2 = .fulfilled none ∧
      rasterFailed.1.consoleErrors = 1 ∧
      mapGet rasterFailed.1.renderTasks 1 = some rasterStarted.2.task := by
  refine ⟨rfl, rfl, rfl, rfl⟩

/-- C3 (counterexample): on a freshly loaded ten-page document nothing is
cached for page 1. `renderPage(1, 0.8)` is called, its `getPage` resolves and
task 0 is in flight; a second `renderPage(1, 0.8)` before that task settles
cancels task 0 and leads to a second `page.render`, so two rasterizations are
started, not one. -/
theorem renderPage_twice_two_render_calls :
    scaleMatches (mapGet (loaded 10).rendered 1) (8 / 10) = false ∧
      (twiceAfterFetch (loaded 10) 1 (8 / 10) none).renderCalls
        = [⟨0, 1, 8 / 10⟩, ⟨1, 1, 8 / 10⟩] ∧
      (twiceAfterFetch (loaded 10) 1 (8 / 10) none).renderCalls.length ≠ 1 ∧
      (twiceAfterFetch (loaded 10) 1 (8 / 10) none).cancelled = [0] := by
  refine ⟨rfl, rfl, by decide, rfl⟩

/-- C3 (amended): for a valid page with a shell and no matching cached
bitmap, when `renderPage` is called a second time with the same page and
scale while the task of the first call is registered and in flight, the
second call cancels and unregisters that task and, once its own `getPage`
resolves, starts a second rasterization, which is then the registered task:
two `page.render` calls in total. A call starts nothing and returns the
cached canvas when a bitmap of matching scale is cached. -/
theorem renderPage_twice_starts_two (s : Viewer) (num : Int) (scale : ℚ)
    (pf : Option FocusToken) (hdoc : s.pdfDoc = true) (hlo : 1 ≤ num)
    (hhi : num ≤ s.pageCount) (hshell : num ∈ s.pageShells)
    (hmiss : scaleMatches (mapGet s.rendered num) scale = false) :
    ((twiceAfterFetch s num scale pf).renderCalls
          = s.renderCalls ++ [⟨s.nextTask, num, scale⟩, ⟨s.nextTask + 1, num, scale⟩] ∧
        s.nextTask ∈ (twiceAfterFetch s num scale pf).cancelled ∧
        mapGet (twiceAfterFetch s num scale pf).renderTasks num = some (s.nextTask + 1)) ∧
      (∀ (s' : Viewer) (info : RenderedInfo), s'.pdfDoc = true → num ≤ s'.pageCount →
        mapGet s'.rendered num = some info → |info.scale - scale| < 1 / 1000 →
        renderPage s' num scale pf = (s', .resolvedCanvas info.canvas)) := by
  have e1 := renderPage_miss s num scale pf hdoc hlo hhi hshell hmiss
  have e3 := renderPage_miss (pageFetched (cancelTask s num) ⟨num, scale, pf⟩).1 num scale pf
    (by simp [pageFetched, cancelTask_pdfDoc, hdoc]) hlo
    (by simp [pageFetched, cancelTask_pageCount, hhi])
    (by simp [pageFetched, cancelTask_pageShells, hshell])
    (by simp [pageFetched, cancelTask_rendered, hmiss])
  have hreg : mapGet (pageFetched (cancelTask s num) ⟨num, scale, pf⟩).1.renderTasks num
      = some s.nextTask := by
    simp [pageFetched, mapGet_mapSet_same, cancelTask_nextTask]
  refine ⟨⟨?_, ?_, ?_⟩, ?_⟩
  · simp only [twiceAfterFetch, e1, fetchResult, e3]
    simp [pageFetched, cancelTask_renderCalls, cancelTask_nextTask]
  · simp only [twiceAfterFetch, e1, fetchResult, e3]
    have := cancelTask_registered _ num s.nextTask hreg
    simpa [pageFetched] using this
  · simp only [twiceAfterFetch, e1, fetchResult, e3]
    simp [pageFetched, mapGet_mapSet_same, cancelTask_nextTask]
  · intro s' info hdoc' hhi' hget hclose
    exact renderPage_hit s' num scale pf info hdoc' hlo hhi' hget
      (by simpa [scaleMatches] using hclose)

/-- C3 (amended) at page 1 of a freshly loaded ten-page document. -/
theorem renderPage_twice_starts_two_witness :
    (twiceAfterFetch (loaded 10) 1 (8 / 10) none).renderCalls
        = (loaded 10).renderCalls ++
            [⟨(loaded 10).nextTask, 1, 8 / 10⟩, ⟨(loaded 10).nextTask + 1, 1, 8 / 10⟩] ∧
      (loaded 10).nextTask ∈ (twiceAfterFetch (loaded 10) 1 (8 / 10) none).cancelled ∧
      mapGet (twiceAfterFetch (loaded 10) 1 (8 / 10) none).renderTasks 1
        = some ((loaded 10).nextTask + 1) :=
  (renderPage_twice_starts_two (loaded 10) 1 (8 / 10) none rfl (by decide) (by decide)
    (by decide) rfl).1

/-- C8 (fails on the code): `smoothZoom` builds its token as `{page,
fraction}` without `oldHeight`, unlike the commit in `touchend`. After the
initial render of a ten-page document (page 1 measures 1000 high) a click on
zoom-in commits zoom 1.25 with the token `{page: 1, fraction: 0.5}`; when
page 1 is re-rendered 1250 high, the completion callback takes the
`scrollIntoView` branch and does not add `0.5 * 1250 - 0.5 * 1000 = 125` to
`container.scrollTop`. -/
theorem smoothZoom_token_has_no_oldHeight :
    (zoomInClick initialRendered).newUi = .fin (5 / 4) ∧
      zoomCommitted.map (fun r => r.2.map Issued.preserveFocus)
        = some [some ⟨1, some (1 / 2), none⟩, none] ∧
      zoomCommitted.map (fun r => r.2.map Issued.result)
        = some [.fetching ⟨1, actualScaleFromUi (5 / 4), some ⟨1, some (1 / 2), none⟩⟩,
            .fetching ⟨2, actualScaleFromUi (5 / 4), none⟩] ∧
      focusAction (some ⟨1, some (1 / 2), none⟩) 1 1250 = .center ∧
      focusAction (some ⟨1, some (1 / 2), some 1000⟩) 1 1250 = .scrollBy 125 ∧
      zoomRerendered.map (fun d => d.1.centered) = some [1] ∧
      zoomRerendered.map (fun d => d.1.scrollTop)
        = zoomCommitted.map (fun r => r.1.scrollTop) := by
  have hc : zoomRerendered.map (fun d => d.1.centered) = some [1] := by
    simp [zoomRerendered, zoomCommitted_eq, taskFulfilled, pageFetched, focusAction,
      applyFocus]
  have hs : zoomRerendered.map (fun d => d.1.scrollTop) = some 0 := by
    simp [zoomRerendered, zoomCommitted_eq, taskFulfilled, pageFetched, focusAction,
      applyFocus]
  have hn : (zoomInClick initialRendered).newUi = .fin (5 / 4) := by
    rw [initialRendered_eq]
    simp only [zoomInClick, smoothZoom, clamp, jsMin, jsMax, UI_MIN, UI_MAX]
    norm_num
  refine ⟨hn, by simp [zoomCommitted_eq], by simp [zoomCommitted_eq], rfl, ?_, hc, ?_⟩
  · simp [focusAction]
    norm_num
  · rw [hs]; simp [zoomCommitted_eq]

end PDFouX
